import Mathlib

/-
  A shallow embedding of the hardcore stack-walking library
  (include/hardcore/stack.hpp, src/stack.cpp).

  Pointers are modelled as natural-number addresses with 0 standing for
  the null pointer.  The process environment (the address held in
  __libc_stack_end, the cached RLIMIT_STACK value returned by
  stack::max_size, and the memory holding the frame link records) is an
  explicit parameter of every operation.
-/

namespace hc

/-- stack_::link — a frame link record: the saved parent frame pointer
and the return address. -/
structure link where
  up : Nat
  ret : Nat
deriving DecidableEq

/-- The read-only process environment of a walk: the top-of-stack base
address (__libc_stack_end), the cached stack resource limit
(stack::max_size, read once from getrlimit) and the memory that frame
pointers are dereferenced in. -/
structure Env where
  stack_end : Nat
  max_size : Nat
  mem : Nat → link

/-- stack_::type — a frame pointer paired with an instruction pointer.
It is both the state of stack_::iterator and the value an iterator
dereference yields. -/
structure type where
  fp : Nat
  ip : Nat
deriving DecidableEq

/-- The default-constructed iterator, iterator() : type{nullptr, nullptr};
this is the end sentinel returned by stack::end(). -/
def type.endI : type := ⟨0, 0⟩

/-- stack_::iterator::operator== — equality compares both fields. -/
def iterEq (a b : type) : Bool :=
  a.fp == b.fp && a.ip == b.ip

/-- stack_::iterator::is_end — inspects only the frame pointer. -/
def is_end (it : type) : Bool :=
  it.fp == 0

/-- stack_::frame_offset — (char*)fp - (char*)__libc_stack_end. -/
def frame_offset (env : Env) (fp : Nat) : Int :=
  (fp : Int) - (env.stack_end : Int)

/-- Two's-complement wrap of an integer into the signed 64-bit range:
models a conversion to ptrdiff_t and the wrap of int64 negation. -/
def toInt64 (z : Int) : Int :=
  (z + 2 ^ 63) % 2 ^ 64 - 2 ^ 63

/-- stack::is_valid_frame — fo <= 0 && fo >= -(ptrdiff_t)max_size().
max_size() returns the cached rlim_cur as a size_t; the cast to
ptrdiff_t wraps values at or above 2^63 (such as RLIM_INFINITY =
2^64 - 1) into the negative range, and the subsequent negation wraps at
-2^63, exactly as the x86-64 code does. -/
def is_valid_frame (env : Env) (fp : Nat) : Bool :=
  decide (frame_offset env fp ≤ 0) &&
  decide (toInt64 (-(toInt64 (env.max_size : Int))) ≤ frame_offset env fp)

/-- stack_::iterator::operator++ — the checked advance.  A null frame
pointer only nulls the instruction pointer; otherwise the three checks
(current frame valid, parent frame valid, parent address strictly above
the current one) guard the step, any failure moving to the sentinel. -/
def advance (env : Env) (it : type) : type :=
  if it.fp == 0 then
    { it with ip := 0 }
  else if !is_valid_frame env it.fp
       || !is_valid_frame env (env.mem it.fp).up
       || decide ((env.mem it.fp).up ≤ it.fp) then
    ⟨0, 0⟩
  else
    ⟨(env.mem it.fp).up, (env.mem it.fp).ret⟩

/-- stack_::iterator::advance_unchecked — follows up/ret directly, no
validation at all. -/
def advance_unchecked (env : Env) (it : type) : Nat → type
  | 0 => it
  | k + 1 => advance_unchecked env ⟨(env.mem it.fp).up, (env.mem it.fp).ret⟩ k

/-- stack_::iterator::operator+= — std::advance over a forward iterator,
i.e. k applications of operator++. -/
def advanceBy (env : Env) (it : type) : Nat → type
  | 0 => it
  | k + 1 => advanceBy env (advance env it) k

/-- stack_::iterator::operator+ — copies the iterator and applies +=,
leaving the operand untouched. -/
def opPlus (env : Env) (it : type) (k : Nat) : type :=
  advanceBy env it k

/-- stack_::iterator::operator++(int) — post-increment: returns the copy
made before advancing paired with the advanced state. -/
def postInc (env : Env) (it : type) : type × type :=
  (it, advance env it)

/-- stack_::iterator::operator* for stack::iterator — yields the current
frame descriptor (the type subobject) by value. -/
def deref (it : type) : type :=
  ⟨it.fp, it.ip⟩

/-- stack_::iterator::operator* for stack::ip_iterator — the conversion
operator ip_type projects the instruction pointer. -/
def ip_deref (it : type) : Nat :=
  it.ip

/-- The advance transition exactly as the specification states it
(spec section 4.2): a null frame pointer goes to the end sentinel; a
non-null one advances to (fp.parent, fp.returnAddress) when fp is valid,
fp.parent is valid and fp.parent lies strictly above fp, and goes to the
end sentinel when any of the three checks fails.  Written from the
specification for comparison with advance. -/
def advanceSpec (env : Env) (it : type) : type :=
  if it.fp = 0 then
    ⟨0, 0⟩
  else if is_valid_frame env it.fp = true
          ∧ is_valid_frame env (env.mem it.fp).up = true
          ∧ it.fp < (env.mem it.fp).up then
    ⟨(env.mem it.fp).up, (env.mem it.fp).ret⟩
  else
    ⟨0, 0⟩

/-- All three per-step checks of operator++ pass at the given state (and
the state is not the null-fp one): the next checked advance is a plain
up/ret step. -/
def checks_pass (env : Env) (it : type) : Bool :=
  (it.fp != 0)
  && is_valid_frame env it.fp
  && is_valid_frame env (env.mem it.fp).up
  && decide (it.fp < (env.mem it.fp).up)

section Lemmas

/-- A valid frame lies at or below the top-of-stack base address. -/
theorem valid_le (env : Env) (fp : Nat) (h : is_valid_frame env fp = true) :
    fp ≤ env.stack_end := by
  simp only [is_valid_frame, frame_offset, Bool.and_eq_true, decide_eq_true_eq] at h
  omega

/-- Every checked advance either reaches the end sentinel or moves to a
valid frame at a strictly higher address. -/
theorem advance_progress (env : Env) (it : type) :
    advance env it = type.endI ∨
      (is_valid_frame env it.fp = true ∧ it.fp < (advance env it).fp ∧
        is_valid_frame env (advance env it).fp = true) := by
  unfold advance
  by_cases h0 : it.fp == 0
  · left
    simp only [h0, if_true]
    have : it.fp = 0 := by simpa using h0
    cases it
    simp_all [type.endI]
  · simp only [h0, Bool.false_eq_true, if_false]
    by_cases hv : is_valid_frame env it.fp
    · by_cases hv2 : is_valid_frame env (env.mem it.fp).up
      · by_cases hm : (env.mem it.fp).up ≤ it.fp
        · left; simp [hv, hv2, hm, type.endI]
        · right
          simp only [hv, hv2, hm, Bool.not_true, Bool.false_or, decide_eq_true_eq]
          simp [hv, hv2, hm]
          omega
      · left; simp [hv, hv2, type.endI]
    · left; simp [hv, type.endI]

/-- Any output of the checked advance satisfies: null frame pointer
forces null instruction pointer. -/
theorem advance_inv (env : Env) (it : type) :
    (advance env it).fp = 0 → (advance env it).ip = 0 := by
  unfold advance
  by_cases h0 : it.fp == 0
  · simp [h0]
  · simp only [h0, Bool.false_eq_true, if_false]
    by_cases hchk : (!is_valid_frame env it.fp
        || !is_valid_frame env (env.mem it.fp).up
        || decide ((env.mem it.fp).up ≤ it.fp)) = true
    · simp [hchk]
    · simp only [hchk, Bool.false_eq_true, if_false]
      simp only [Bool.or_eq_true, Bool.not_eq_true', decide_eq_true_eq, not_or] at hchk
      intro hup
      omega

end Lemmas

/-- C2 (amended): the boundary validator is a pure predicate of p and
the cached limit, true exactly when offset = p - stack_end satisfies
offset <= 0 and offset >= the cached limit converted to ptrdiff_t and
negated, both with 64-bit two's-complement wrap; whenever the cached
limit is below 2^63 that bound equals the -stackSizeLimit of the
original claim, which therefore holds on that range. -/
theorem is_valid_frame_wrap_iff :
    (∀ (env : Env) (p : Nat),
        is_valid_frame env p = true ↔
          frame_offset env p ≤ 0 ∧
            toInt64 (-(toInt64 (env.max_size : Int))) ≤ frame_offset env p) ∧
    (∀ (env : Env) (p : Nat), env.max_size < 2 ^ 63 →
        (is_valid_frame env p = true ↔
          frame_offset env p ≤ 0 ∧ -(env.max_size : Int) ≤ frame_offset env p)) := by
  constructor
  · intro env p
    simp [is_valid_frame]
  · intro env p h
    have h63 : ((2 : Int) ^ 63) = 9223372036854775808 := by norm_num
    have h64 : ((2 : Int) ^ 64) = 18446744073709551616 := by norm_num
    have hm : (env.max_size : Int) < 9223372036854775808 := by
      have : (env.max_size : Int) < ((2 : Nat) ^ 63 : Nat) := by exact_mod_cast h
      simpa using this
    have hb : toInt64 (-(toInt64 (env.max_size : Int))) = -(env.max_size : Int) := by
      unfold toInt64
      rw [h63, h64]
      omega
    simp [is_valid_frame, hb]

/-- C1: the checked advance operator++ is exactly the transition function
the specification describes: null fp goes to the end sentinel, a non-null
fp advances to (fp.parent, fp.returnAddress) when fp is valid, its parent
is valid and the parent address is strictly greater, otherwise to the end
sentinel. -/
theorem advance_eq_spec (env : Env) (it : type) :
    advance env it = advanceSpec env it := by
  unfold advance advanceSpec
  by_cases h0 : it.fp = 0
  · cases it
    simp_all
  · have hb : (it.fp == 0) = false := by simpa using h0
    simp only [hb, Bool.false_eq_true, if_false, h0, if_false]
    by_cases hv : is_valid_frame env it.fp
    · by_cases hv2 : is_valid_frame env (env.mem it.fp).up
      · by_cases hm : (env.mem it.fp).up ≤ it.fp
        · have : ¬ it.fp < (env.mem it.fp).up := by omega
          simp [hv, hv2, hm, this]
        · have : it.fp < (env.mem it.fp).up := by omega
          simp [hv, hv2, hm, this]
      · simp [hv, hv2]
    · simp [hv]

/-- C7: end() == end(); dereferencing the end sentinel succeeds and
yields the all-null descriptor; iterator equality holds exactly when the
frame-pointer and instruction-pointer fields agree pairwise. -/
theorem end_iter_properties :
    iterEq type.endI type.endI = true ∧
    deref type.endI = ⟨0, 0⟩ ∧
    ∀ a b : type, iterEq a b = true ↔ (a.fp = b.fp ∧ a.ip = b.ip) := by
  refine ⟨rfl, rfl, ?_⟩
  intro a b
  simp [iterEq]

/-- C8: a copy of a cursor compares equal to the original, and
post-increment returns the unmodified pre-advance value while the
advanced state is a separate value: cursors are independent values. -/
theorem copy_value_semantics (env : Env) (it : type) :
    iterEq it it = true ∧
    (postInc env it).1 = it ∧
    (postInc env it).2 = advance env it := by
  refine ⟨?_, rfl, rfl⟩
  simp [iterEq]

/-- C9: operator+= (std::advance) and operator+ both compute exactly the
k-fold application of the single-step checked advance; operator+ works on
a copy, leaving its operand unchanged. -/
theorem bulk_advance_eq_iterate (env : Env) (it : type) (k : Nat) :
    advanceBy env it k = (advance env)^[k] it ∧
    opPlus env it k = (advance env)^[k] it := by
  have h : ∀ n j, advanceBy env j n = (advance env)^[n] j := by
    intro n
    induction n with
    | zero => intro j; rfl
    | succ n ih =>
        intro j
        rw [Function.iterate_succ_apply]
        exact ih (advance env j)
  exact ⟨h k it, h k it⟩

/-- C3: the monotonicity invariant (every non-terminal advance strictly
increases the frame-pointer address) and, as a consequence, termination:
from every starting cursor, even one over a cyclic or corrupted chain,
finitely many checked advances reach the end sentinel. -/
theorem walk_terminates :
    (∀ (env : Env) (it : type),
        advance env it = type.endI ∨ it.fp < (advance env it).fp) ∧
    (∀ (env : Env) (it : type), ∃ n, advanceBy env it n = type.endI) := by
  constructor
  · intro env it
    rcases advance_progress env it with h | ⟨_, hlt, _⟩
    · exact Or.inl h
    · exact Or.inr hlt
  · intro env it
    have key : ∀ m j, env.stack_end + 1 - j.fp ≤ m →
        ∃ n, advanceBy env j n = type.endI := by
      intro m
      induction m with
      | zero =>
          intro j hm
          rcases advance_progress env j with h | ⟨hv, _, _⟩
          · exact ⟨1, h⟩
          · have := valid_le env j.fp hv
            omega
      | succ m ih =>
          intro j hm
          rcases advance_progress env j with h | ⟨hv, hlt, hv2⟩
          · exact ⟨1, h⟩
          · have h1 := valid_le env j.fp hv
            have h2 := valid_le env (advance env j).fp hv2
            obtain ⟨n, hn⟩ := ih (advance env j) (by omega)
            exact ⟨n + 1, hn⟩
    exact key (env.stack_end + 1 - it.fp) it le_rfl

/-- C6: when each of the k successive checked advances from a cursor
passes all validation checks, the unchecked advance over k steps yields
exactly the same cursor as k checked advances. -/
theorem unchecked_eq_checked (env : Env) (it : type) (k : Nat)
    (h : ∀ i, i < k → checks_pass env (advanceBy env it i) = true) :
    advance_unchecked env it k = advanceBy env it k := by
  induction k generalizing it with
  | zero => rfl
  | succ k ih =>
      have h0 : checks_pass env it = true := h 0 (Nat.succ_pos k)
      simp only [checks_pass, Bool.and_eq_true, bne_iff_ne, ne_eq,
        decide_eq_true_eq] at h0
      obtain ⟨⟨⟨hfp, hv⟩, hv2⟩, hm⟩ := h0
      have hadv : advance env it = ⟨(env.mem it.fp).up, (env.mem it.fp).ret⟩ := by
        unfold advance
        have hb : (it.fp == 0) = false := by simpa using hfp
        have hm2 : ¬ (env.mem it.fp).up ≤ it.fp := by omega
        simp [hb, hv, hv2, hm2]
      show advance_unchecked env ⟨(env.mem it.fp).up, (env.mem it.fp).ret⟩ k =
        advanceBy env (advance env it) k
      rw [hadv]
      refine ih _ (fun i hi => ?_)
      have hh := h (i + 1) (Nat.succ_lt_succ hi)
      have he : advanceBy env it (i + 1) = advanceBy env (advance env it) i := rfl
      rw [he, hadv] at hh
      exact hh

/-- Cursors reachable through the public interface: the default/end
constructor, begin() (which captures the genuine, hence non-null, frame
address of the caller), and any number of checked advances. -/
inductive Reachable (env : Env) : type → Prop
  | end_ : Reachable env type.endI
  | begin_ (fp ip : Nat) : fp ≠ 0 → Reachable env ⟨fp, ip⟩
  | step (it : type) : Reachable env it → Reachable env (advance env it)

/-- C10: every publicly reachable cursor with a null frame pointer also
has a null instruction pointer, so is_end, which inspects only the frame
pointer, agrees exactly with comparing against the end sentinel. -/
theorem reachable_invariant (env : Env) (it : type) (h : Reachable env it) :
    (it.fp = 0 → it.ip = 0) ∧
    (is_end it = true ↔ iterEq it type.endI = true) := by
  have inv : it.fp = 0 → it.ip = 0 := by
    induction h with
    | end_ => intro _; rfl
    | begin_ fp ip hfp => intro hc; exact absurd hc hfp
    | step j _ _ => exact advance_inv env j
  refine ⟨inv, ?_⟩
  simp only [is_end, iterEq, type.endI, beq_iff_eq, Bool.and_eq_true]
  constructor
  · intro hfp
    exact ⟨hfp, by simpa using inv hfp⟩
  · intro ⟨hfp, _⟩
    exact hfp

/-- A concrete environment with a three-frame chain used by witnesses
and concrete evaluations. -/
def cmem : Nat → link := fun a =>
  if a = 100 then ⟨200, 0x2000⟩
  else if a = 200 then ⟨300, 0x3000⟩
  else ⟨0, 0⟩

def cenv : Env := ⟨10000, 10000, cmem⟩

def cit : type := ⟨100, 0x1000⟩

/-- The concrete environment with the stack resource limit cached as
RLIM_INFINITY = 2^64 - 1, the value getrlimit reports under
ulimit -s unlimited. -/
def cenvInf : Env := ⟨10000, 2 ^ 64 - 1, cmem⟩

/-- Counterexample for C2: with RLIM_INFINITY cached, the claimed
equivalence fails at the top-of-stack address itself — its offset 0
satisfies offset <= 0 and offset >= -stackSizeLimit, yet the validator
returns false, because the cast of 2^64 - 1 to ptrdiff_t wraps to -1
and the negated bound becomes +1. -/
theorem is_valid_frame_counterexample :
    ¬ (is_valid_frame cenvInf 10000 = true ↔
        frame_offset cenvInf 10000 ≤ 0 ∧
          -(cenvInf.max_size : Int) ≤ frame_offset cenvInf 10000) := by
  decide

/-- Witness for C2: the concrete environment caches a limit below 2^63,
where the validator agrees with the original mathematical bound. -/
theorem is_valid_frame_wrap_iff_witness :
    cenv.max_size < 2 ^ 63 ∧
    (is_valid_frame cenv 10000 = true ↔
      frame_offset cenv 10000 ≤ 0 ∧
        -(cenv.max_size : Int) ≤ frame_offset cenv 10000) :=
  ⟨by decide, is_valid_frame_wrap_iff.2 cenv 10000 (by decide)⟩

/-- Witness for C6: in the concrete environment, both checked advances
from the start cursor pass all checks and the unchecked bulk advance
agrees with the checked one. -/
theorem unchecked_eq_checked_witness :
    (∀ i, i < 2 → checks_pass cenv (advanceBy cenv cit i) = true) ∧
    advance_unchecked cenv cit 2 = advanceBy cenv cit 2 :=
  ⟨by decide, unchecked_eq_checked cenv cit 2 (by decide)⟩

/-- Witness for C10: the end sentinel is reachable and satisfies the
invariant. -/
theorem reachable_invariant_witness :
    (type.endI.fp = 0 → type.endI.ip = 0) ∧
    (is_end type.endI = true ↔ iterEq type.endI type.endI = true) :=
  reachable_invariant cenv type.endI Reachable.end_

/-
  Model of the textual rendering operator<<(std::ostream, const
  stack::ips) from src/stack.cpp, over a std::ostream whose observable
  pieces here are the format flags (a bitmask, as ios_base::fmtflags is)
  and the text written so far.  Only the basefield matters to the code;
  the three basefield bits get fixed small values.
-/

def OCT : Nat := 1
def DEC : Nat := 2
def HEX : Nat := 4
def BASEFIELD : Nat := 7

structure OStream where
  flags : Nat
  buf : String
deriving DecidableEq

/-- ios_base::setf(fl, mask) — clears the mask bits, sets fl within the
mask, and returns the complete previous flag word. -/
def OStream.setfMask (s : OStream) (fl mask : Nat) : Nat × OStream :=
  (s.flags, { s with flags := (s.flags - (s.flags &&& mask)) + (fl &&& mask) })

/-- ios_base::setf(fl) — the single-argument overload ORs fl into the
flag word and returns the previous flag word. -/
def OStream.setfOr (s : OStream) (fl : Nat) : Nat × OStream :=
  (s.flags, { s with flags := s.flags ||| fl })

/-- How libstdc++ num_put prints a const void pointer: the value in
lowercase hexadecimal with a 0x prefix (forced hex and showbase,
independent of the basefield the stream holds), a bare 0 for null. -/
def putPtr (v : Nat) : String :=
  if v = 0 then "0" else "0x" ++ String.mk (Nat.toDigits 16 v)

/-- One stream insertion: appends text to the stream, or throws (models
a failing sink) when the budget of successful insertions is exhausted.
On a throw the stream state at that point is carried by the error. -/
def insert1 (s : OStream) (txt : String) :
    Option Nat → Except OStream (OStream × Option Nat)
  | none => .ok ({ s with buf := s.buf ++ txt }, none)
  | some 0 => .error s
  | some (b + 1) => .ok ({ s with buf := s.buf ++ txt }, some b)

/-- The loop body of the renderer: for each walked value, insert the
pointer text and then a single space character. -/
def writeSeq : List Nat → Option Nat → OStream → Except OStream OStream
  | [], _, s => .ok s
  | v :: rest, budget, s =>
    match insert1 s (putPtr v) budget with
    | .error e => .error e
    | .ok (s1, b1) =>
      match insert1 s1 " " b1 with
      | .error e => .error e
      | .ok (s2, b2) => writeSeq rest b2 s2

/-- The instruction pointers a range-based for loop over the ips view
visits: dereference while the iterator differs from the end sentinel,
advancing with the checked advance.  Fuel bounds the walk; C3 shows a
finite walk always suffices. -/
def traceIps (env : Env) : type → Nat → List Nat
  | _, 0 => []
  | it, fuel + 1 =>
    if iterEq it type.endI then [] else it.ip :: traceIps env (advance env it) fuel

/-- operator<<(std::ostream, const stack::ips) — saves the flags
returned by setf(hex, basefield), writes each walked value as a void
pointer followed by a space, and applies setf(save) on the normal path
and on the exception path before rethrowing. -/
def renderIps (env : Env) (it : type) (fuel : Nat) (budget : Option Nat)
    (s : OStream) : Except OStream OStream :=
  let p := s.setfMask HEX BASEFIELD
  match writeSeq (traceIps env it fuel) budget p.2 with
  | .ok s2 => .ok (s2.setfOr p.1).2
  | .error s2 => .error (s2.setfOr p.1).2

/-- The buffer of the stream a render ends with, on either exit path. -/
def bufOf : Except OStream OStream → String
  | .ok s => s.buf
  | .error s => s.buf

/-- The flag word of the stream a render ends with, on either exit
path. -/
def flagsOf : Except OStream OStream → Nat
  | .ok s => s.flags
  | .error s => s.flags

/-- The text a successful render appends: each value as a void pointer
followed by one space, in walk order, nothing else. -/
def renderedText : List Nat → String
  | [] => ""
  | v :: rest => putPtr v ++ " " ++ renderedText rest

/-- A render whose sink never fails writes exactly the rendered text of
the element list after whatever the buffer already held. -/
theorem writeSeq_none (xs : List Nat) (s : OStream) :
    writeSeq xs none s = .ok ⟨s.flags, s.buf ++ renderedText xs⟩ := by
  induction xs generalizing s with
  | nil =>
      simp [writeSeq, renderedText]
  | cons v rest ih =>
      simp only [writeSeq, insert1, renderedText]
      rw [ih]
      congr 1
      simp [String.append_assoc]

/-- C4 (amended): a non-failing render appends, for every non-sentinel
element of the walk in order, that address printed as a void pointer
(0x-prefixed lowercase hexadecimal) followed by a single space — no
leading or extra separators and a trailing space; the concrete walk
yielding 0x1000, 0x2000, 0x3000 renders as the text
"0x1000 0x2000 0x3000 ". -/
theorem render_text :
    (∀ (env : Env) (it : type) (fuel : Nat) (s : OStream),
        bufOf (renderIps env it fuel none s) =
          s.buf ++ renderedText (traceIps env it fuel)) ∧
    traceIps cenv cit 5 = [0x1000, 0x2000, 0x3000] ∧
    bufOf (renderIps cenv cit 5 none ⟨DEC, ""⟩) = "0x1000 0x2000 0x3000 " := by
  refine ⟨?_, by decide, by decide⟩
  intro env it fuel s
  simp only [renderIps, writeSeq_none, bufOf, OStream.setfMask, OStream.setfOr]

/-- Counterexample for C4: the walk over the concrete chain yields
exactly the addresses 0x1000, 0x2000, 0x3000, yet the rendered text is
"0x1000 0x2000 0x3000 " — not the claimed "1000 2000 3000 ", because
pointer insertion prints a 0x prefix regardless of the basefield. -/
theorem render_text_counterexample :
    traceIps cenv cit 5 = [0x1000, 0x2000, 0x3000] ∧
    bufOf (renderIps cenv cit 5 none ⟨DEC, ""⟩) ≠ "1000 2000 3000 " := by
  constructor
  · decide
  · decide

/-- C5 (code evaluated at the failing input): a stream whose basefield
is dec does not get its flags restored by the render.  On the normal
path and on the throwing path alike, the code restores with setf(save),
which ORs the saved word into the current flags, so the hex bit set for
rendering survives: the final flag word is dec|||hex, not the original
dec. -/
theorem render_flags_bug :
    flagsOf (renderIps cenv type.endI 1 none ⟨DEC, ""⟩) = (DEC ||| HEX) ∧
    flagsOf (renderIps cenv cit 5 (some 0) ⟨DEC, ""⟩) = (DEC ||| HEX) ∧
    DEC ||| HEX ≠ DEC := by
  refine ⟨by decide, by decide, by decide⟩

end hc
